import Mathlib

/-!
Shallow embedding of the KeeWeb Auto-Type Orchestration Engine
(`src/app/scripts/auto-type/index.js`).

The engine is single-threaded JavaScript driven by callbacks.  We embed it
as explicit state passing: each handler is a function from the engine state
(and an environment describing the external collaborators' answers) to the
new state together with the list of observable actions it performed, in
order.  Asynchronous continuations (`setTimeout`, the window-title query
callback, the picker's `result` event) fire on the same thread, so each
complete handler invocation is modelled as one synchronous function.
-/

namespace AutoType

/-- A credential entry reference.  Only the fields the engine reads are
modelled: an identity and the `autoTypeObfuscation` flag consulted by
`run`.  (`getEffectiveAutoTypeSeq` feeds the external parser, whose outcome
is abstracted by `StageOutcomes`.) -/
structure Entry where
  id : Nat
  autoTypeObfuscation : Bool
  deriving DecidableEq, Repr

/-- The `{title, url}` window context captured by `getActiveWindowTitle`
and wrapped into an `AutoTypeFilter`.  Either component may be absent
(adapter failure passes `undefined`). -/
structure FilterCtx where
  title : Option String
  url : Option String
  deriving DecidableEq, Repr

/-- The deferred event object `evt = { filter }` built in
`selectEntryAndRun`: it retains the filter made from the window context
captured at deferral time. -/
structure Evt where
  filter : FilterCtx
  deriving DecidableEq, Repr

/-- The mutable fields of the `AutoType` singleton, plus `updateSubscribed`
standing for whether the `files.once('update', processPendingEvent)`
subscription is in place.  `selectEntryView` holds the filter the live
picker was built from (`null`/`false` is `none`). -/
structure EngineState where
  running : Bool
  pendingEvent : Option Evt
  selectEntryView : Option FilterCtx
  updateSubscribed : Bool
  deriving DecidableEq, Repr

/-- Answers of the external collaborators consulted during trigger
handling: `Launcher.isAppFocused()`, the window context delivered by
`getActiveWindowTitle`, `appModel.files.hasOpenFiles()`, and
`filter.getEntries()` as a function of the filter context the
`AutoTypeFilter` was constructed from. -/
structure Env where
  isAppFocused : Bool
  windowTitle : FilterCtx
  hasOpenFiles : Bool
  getEntries : FilterCtx → List Entry

/-- Observable actions a handler performs, in program order.
`startRun e` stands for the call `runAndHandleResult(e)` — the start of
entry `e`'s pipeline run (the pipeline itself is modelled by `run`
below). -/
inductive Action where
  | hideApp
  | delayed (ms : Nat)
  | contInvoked
  | startRun (e : Entry)
  | alertError
  | focusMainWindow
  | pickerCreated (f : FilterCtx)
  | pickerRemoved
  deriving DecidableEq, Repr

/-- `Timeouts.AutoTypeAfterHide` — the fixed settle delay passed to
`setTimeout` in `hideWindow`.  Modelled from the spec: the constant lives
in `src/app/scripts/const/timeouts.js`, which is not under `src/`; the
spec only requires it to be a fixed configuration constant. -/
def AutoTypeAfterHide : Nat := 100

/-- `hideWindow(callback)`: if the app is focused, hide it and run the
continuation after the settle delay; otherwise run the continuation
immediately.  The continuation's own actions are passed as `k`. -/
def hideWindow (focused : Bool) (k : List Action) : List Action :=
  if focused then Action.hideApp :: Action.delayed AutoTypeAfterHide :: k else k

/-- `processEventWithFilter(evt)`: query `evt.filter.getEntries()`; with
exactly one entry, hide the window and start that entry's run; otherwise
focus the main window and create the select view (the picker), storing it
in `selectEntryView`. -/
def processEventWithFilter (st : EngineState) (evt : Evt) (env : Env) :
    EngineState × List Action :=
  match env.getEntries evt.filter with
  | [e] => (st, hideWindow env.isAppFocused [Action.startRun e])
  | _ =>
      ({ st with selectEntryView := some evt.filter },
       [Action.focusMainWindow, Action.pickerCreated evt.filter])

/-- The picker's single `result` handler: remove the result listener and
the view, clear `selectEntryView`, then hide the window and — only if a
result entry was chosen — start its run. -/
def pickerResult (st : EngineState) (result : Option Entry) (env : Env) :
    EngineState × List Action :=
  ({ st with selectEntryView := none },
   Action.pickerRemoved ::
     hideWindow env.isAppFocused
       (match result with
        | some e => [Action.startRun e]
        | none => []))

/-- `selectEntryAndRun()`: capture the active window context, build the
filter event; with no open files record it as `pendingEvent`, subscribe
once to `update` and focus the main window; otherwise process it now. -/
def selectEntryAndRun (st : EngineState) (env : Env) :
    EngineState × List Action :=
  let evt : Evt := ⟨env.windowTitle⟩
  if env.hasOpenFiles then
    processEventWithFilter st evt env
  else
    ({ st with pendingEvent := some evt, updateSubscribed := true },
     [Action.focusMainWindow])

/-- `handleEvent(e)`: drop the trigger when `running`; a direct trigger
carrying an entry hides the window and starts that entry's run; an
entry-less trigger is dropped if a picker is open, rejected with an alert
if the app itself is focused, and otherwise goes through
`selectEntryAndRun`. -/
def handleEvent (st : EngineState) (e : Option Entry) (env : Env) :
    EngineState × List Action :=
  if st.running then (st, [])
  else
    match e with
    | some entry => (st, hideWindow env.isAppFocused [Action.startRun entry])
    | none =>
        if st.selectEntryView.isSome then (st, [])
        else if env.isAppFocused then (st, [Action.alertError])
        else selectEntryAndRun st env

/-- `resetPendingEvent()`: if a pending event exists, clear it and remove
the `update` subscription; otherwise do nothing. -/
def resetPendingEvent (st : EngineState) : EngineState × List Action :=
  match st.pendingEvent with
  | some _ => ({ st with pendingEvent := none, updateSubscribed := false }, [])
  | none => (st, [])

/-- `processPendingEvent()`: if no event is pending, return; otherwise take
the stored event, remove the `update` subscription, clear `pendingEvent`,
and run `processEventWithFilter` on the stored event. -/
def processPendingEvent (st : EngineState) (env : Env) :
    EngineState × List Action :=
  match st.pendingEvent with
  | none => (st, [])
  | some evt =>
      processEventWithFilter
        { st with pendingEvent := none, updateSubscribed := false } evt env

/-- Outcomes of the external pipeline collaborators for one run: `some e`
means the stage fails with error `e` (`parse` throws synchronously,
`resolve` calls back with an error, `obfuscate` throws, `exec` — the
runner's own `run` — calls back with an error); `none` means success. -/
structure StageOutcomes where
  parse : Option String
  resolve : Option String
  obfuscate : Option String
  exec : Option String
  deriving DecidableEq, Repr

/-- Events of a pipeline run, in program order: mutations of the `running`
flag, invocations of the external stages, and invocations of the run's
completion callback with its argument. -/
inductive RunEv where
  | setRunning (b : Bool)
  | parseCalled
  | resolveCalled
  | obfuscateCalled
  | execCalled
  | callback (e : Option String)
  deriving DecidableEq, Repr

/-- The tail of the pipeline from `runner.run(...)` on: execution, then
`running = false`, then the callback with the execution error or with
nothing. -/
def execTrace (oc : StageOutcomes) : List RunEv :=
  RunEv.execCalled ::
    match oc.exec with
    | some e => [RunEv.setRunning false, RunEv.callback (some e)]
    | none => [RunEv.setRunning false, RunEv.callback none]

/-- `run(entry, callback)`: set `running = true`, parse the entry's
effective sequence (synchronous failure resets `running` and calls back),
resolve (asynchronous failure resets `running` and calls back), optionally
obfuscate when `entry.autoTypeObfuscation` (failure resets `running` and
calls back), then execute (`running` is reset before the callback on both
failure and success). -/
def run (entry : Entry) (oc : StageOutcomes) : List RunEv :=
  RunEv.setRunning true :: RunEv.parseCalled ::
    match oc.parse with
    | some e => [RunEv.setRunning false, RunEv.callback (some e)]
    | none =>
        RunEv.resolveCalled ::
          match oc.resolve with
          | some e => [RunEv.setRunning false, RunEv.callback (some e)]
          | none =>
              if entry.autoTypeObfuscation then
                RunEv.obfuscateCalled ::
                  match oc.obfuscate with
                  | some e => [RunEv.setRunning false, RunEv.callback (some e)]
                  | none => execTrace oc
              else execTrace oc

/-- `validate(entry, sequence, callback)`: parse, and on synchronous parse
failure call back with the thrown error; otherwise hand the callback to
`runner.resolve`, which delivers the resolve outcome.  The engine state is
neither read nor written, so it is threaded through unchanged. -/
def validate (st : EngineState) (oc : StageOutcomes) :
    EngineState × List RunEv :=
  (st,
   RunEv.parseCalled ::
     match oc.parse with
     | some e => [RunEv.callback (some e)]
     | none => [RunEv.resolveCalled, RunEv.callback oc.resolve])

/-- The value of the `running` field at each callback in a run trace,
paired with the callback's argument, given the value of `running` when the
trace starts. -/
def runningAtCallbacks (t : List RunEv) (r : Bool) :
    List (Bool × Option String) :=
  match t with
  | [] => []
  | RunEv.setRunning b :: rest => runningAtCallbacks rest b
  | RunEv.callback e :: rest => (r, e) :: runningAtCallbacks rest r
  | _ :: rest => runningAtCallbacks rest r

/-- The error the run's callback should receive according to the spec's
propagation policy: the first failing stage's error, obfuscation counting
only when the entry requests it, and `none` on success.  Written from the
spec's words, to be compared with the trace `run` produces. -/
def firstStageError (entry : Entry) (oc : StageOutcomes) : Option String :=
  match oc.parse with
  | some e => some e
  | none =>
      match oc.resolve with
      | some e => some e
      | none =>
          if entry.autoTypeObfuscation then
            match oc.obfuscate with
            | some e => some e
            | none => oc.exec
          else oc.exec

/-- The op tree nodes handled by `printOp`: `group` carries nested ops,
`text` a literal value, `cmd` an op type name and argument value.  `mod`
is the node's modifier string (`Object.keys(op.mod).join('')` in the
source — already joined, since the key set is an external detail). -/
inductive Op where
  | group (mod : String) (value : List Op)
  | text (mod : String) (value : String)
  | cmd (mod : String) (type : String) (value : String)

/-- Whether the JavaScript regular-expression dot (no `s` flag) matches
character `c`: every character except the line terminators LF, CR,
U+2028 and U+2029. -/
def jsDotMatches (c : Char) : Bool :=
  !(c = '\n' || c = '\r' || c.val = 0x2028 || c.val = 0x2029)

/-- The characters `value.replace(/./g, '*')` produces for one source
character: line terminators are not matched and pass through; a matched
astral character occupies two UTF-16 code units and becomes two
asterisks; any other matched character becomes one asterisk. -/
def maskCharL (c : Char) : List Char :=
  if jsDotMatches c then
    if 0x10000 ≤ c.val then ['*', '*'] else ['*']
  else [c]

/-- `value.replace(/./g, '*')` over a whole literal. -/
def maskText (s : String) : String :=
  ⟨(s.data.map maskCharL).flatten⟩

mutual

/-- `printOp(op)`: prefix the modifier string; a group prints its children
through `printOps`; a text literal prints verbatim when the
`clearTextAutoTypeLog` debug flag is set and masked otherwise; any other
op prints as `type:value`. -/
def printOp (clear : Bool) : Op → String
  | Op.group mod value => mod ++ printOps clear value
  | Op.text mod value => mod ++ (if clear then value else maskText value)
  | Op.cmd mod ty value => mod ++ ty ++ ":" ++ value

/-- `printOps(ops)`: the children printed by `printOp` joined with commas,
wrapped in brackets. -/
def printOps (clear : Bool) (ops : List Op) : String :=
  "[" ++ printOpList clear ops ++ "]"

/-- `ops.map(printOp).join(',')`. -/
def printOpList (clear : Bool) : List Op → String
  | [] => ""
  | [o] => printOp clear o
  | o :: rest => printOp clear o ++ "," ++ printOpList clear rest

end

/-! Helper lemmas shared by the claim theorems. -/

/-- `processEventWithFilter` never touches the deferred-event fields. -/
theorem processEventWithFilter_frame (st : EngineState) (evt : Evt)
    (env : Env) :
    (processEventWithFilter st evt env).1.pendingEvent = st.pendingEvent ∧
    (processEventWithFilter st evt env).1.updateSubscribed =
      st.updateSubscribed ∧
    (processEventWithFilter st evt env).1.running = st.running := by
  unfold processEventWithFilter
  rcases env.getEntries evt.filter with _ | ⟨a, _ | _⟩ <;> simp

/-- `processPendingEvent` does nothing when no event is pending. -/
theorem processPendingEvent_none (st : EngineState) (env : Env)
    (h : st.pendingEvent = none) :
    processPendingEvent st env = (st, []) := by
  simp [processPendingEvent, h]

/-! The claim theorems. -/

/-- C1: while `running` is true, `handleEvent` drops every trigger —
direct or entry-less — starting no run, queuing nothing, and leaving the
whole engine state (`pendingEvent`, `selectEntryView`, `running`)
unchanged, so the `running` guard keeps at most one pipeline in flight. -/
theorem handleEvent_drops_while_running (st : EngineState)
    (e : Option Entry) (env : Env) (h : st.running = true) :
    handleEvent st e env = (st, []) := by
  simp [handleEvent, h]

theorem handleEvent_drops_while_running_witness :
    handleEvent ⟨true, none, none, false⟩ (some ⟨7, false⟩)
        ⟨true, ⟨none, none⟩, true, fun _ => []⟩ =
      (⟨true, none, none, false⟩, []) :=
  handleEvent_drops_while_running _ _ _ rfl

/-- C2: `run` sets `running` to true as its first action, and on every
terminal outcome — parse, resolve, obfuscate or execute failure, or
execute success — the callback fires exactly once, `running` is false at
the moment it fires, and its argument is the first failing stage's error
(`none` on success). -/
theorem run_callback_discipline (entry : Entry) (oc : StageOutcomes) :
    (run entry oc).head? = some (RunEv.setRunning true) ∧
    runningAtCallbacks (run entry oc) false =
      [(false, firstStageError entry oc)] := by
  obtain ⟨p, r, o, x⟩ := oc
  obtain ⟨i, ob⟩ := entry
  cases p <;> cases r <;> cases ob <;> cases o <;> cases x <;>
    simp [run, execTrace, runningAtCallbacks, firstStageError]

/-- C7: `hideWindow` invokes its continuation exactly once; when the app
is focused it first hides the app and delays by the configured settle
timeout, and when it is not focused the continuation runs immediately
with no hide and no delay. -/
theorem hideWindow_spec (f : Bool) :
    List.count Action.contInvoked (hideWindow f [Action.contInvoked]) = 1 ∧
    hideWindow true [Action.contInvoked] =
      [Action.hideApp, Action.delayed AutoTypeAfterHide,
       Action.contInvoked] ∧
    hideWindow false [Action.contInvoked] = [Action.contInvoked] := by
  cases f <;> simp [hideWindow]

/-- C9: `validate` threads the engine state through unchanged (it neither
reads nor writes `running`, `pendingEvent` or `selectEntryView`), never
sets `running`, never obfuscates or executes, and on synchronous parse
failure the callback receives exactly the parse error. -/
theorem validate_pure (st : EngineState) (oc : StageOutcomes) :
    (validate st oc).1 = st ∧
    (∀ b, RunEv.setRunning b ∉ (validate st oc).2) ∧
    RunEv.obfuscateCalled ∉ (validate st oc).2 ∧
    RunEv.execCalled ∉ (validate st oc).2 ∧
    (∀ e, oc.parse = some e →
      (validate st oc).2 = [RunEv.parseCalled, RunEv.callback (some e)]) := by
  obtain ⟨p, r, o, x⟩ := oc
  cases p <;> simp [validate]

theorem validate_pure_witness :
    (validate ⟨true, none, none, false⟩ ⟨some "bad", none, none, none⟩).1 =
      ⟨true, none, none, false⟩ ∧
    (validate ⟨true, none, none, false⟩ ⟨some "bad", none, none, none⟩).2 =
      [RunEv.parseCalled, RunEv.callback (some "bad")] :=
  ⟨(validate_pure ⟨true, none, none, false⟩
      ⟨some "bad", none, none, none⟩).1,
   (validate_pure ⟨true, none, none, false⟩
      ⟨some "bad", none, none, none⟩).2.2.2.2 "bad" rfl⟩

/-- C10: a direct trigger carrying an entry, arriving while a picker is
open but `running` is false, is not dropped: `handleEvent` hides the
window and starts that entry's run, leaving the state — in particular the
open picker in `selectEntryView` — unchanged; only `running` gates direct
triggers. -/
theorem handleEvent_direct_ignores_picker (st : EngineState)
    (entry : Entry) (env : Env) (h1 : st.running = false)
    (_h2 : st.selectEntryView.isSome) :
    handleEvent st (some entry) env =
      (st, hideWindow env.isAppFocused [Action.startRun entry]) := by
  simp [handleEvent, h1]

theorem handleEvent_direct_ignores_picker_witness :
    handleEvent ⟨false, none, some ⟨some "w", none⟩, false⟩ (some ⟨3, true⟩)
        ⟨false, ⟨none, none⟩, true, fun _ => []⟩ =
      (⟨false, none, some ⟨some "w", none⟩, false⟩,
       [Action.startRun ⟨3, true⟩]) :=
  handleEvent_direct_ignores_picker _ _ _ rfl rfl

/-- C3 counterexample: with zero matching candidates,
`processEventWithFilter` does create a picker — `selectEntryView` becomes
the filter context and a `pickerCreated` action is emitted — rather than
returning to idle with no action. -/
theorem processEventWithFilter_zero_creates_picker :
    processEventWithFilter ⟨false, none, none, false⟩ ⟨⟨some "t", none⟩⟩
        ⟨false, ⟨none, none⟩, true, fun _ => []⟩ =
      (⟨false, none, some ⟨some "t", none⟩, false⟩,
       [Action.focusMainWindow, Action.pickerCreated ⟨some "t", none⟩]) ∧
    (processEventWithFilter ⟨false, none, none, false⟩ ⟨⟨some "t", none⟩⟩
        ⟨false, ⟨none, none⟩, true, fun _ => []⟩).1.selectEntryView ≠
      none := by
  exact ⟨rfl, by decide⟩

/-- C3 (amended): for an entry-less trigger whose filter returns zero
candidates, no pipeline run starts, but the engine does not return to
idle: it opens the picker exactly as in the many-candidates case,
focusing the main window and storing the select view. -/
theorem processEventWithFilter_zero_candidates (st : EngineState)
    (evt : Evt) (env : Env) (h : env.getEntries evt.filter = []) :
    processEventWithFilter st evt env =
      ({ st with selectEntryView := some evt.filter },
       [Action.focusMainWindow, Action.pickerCreated evt.filter]) ∧
    ∀ e, Action.startRun e ∉ (processEventWithFilter st evt env).2 := by
  constructor
  · simp [processEventWithFilter, h]
  · intro e
    simp [processEventWithFilter, h]

theorem processEventWithFilter_zero_candidates_witness :
    processEventWithFilter ⟨false, none, none, false⟩ ⟨⟨none, none⟩⟩
        ⟨false, ⟨none, none⟩, true, fun _ => []⟩ =
      (⟨false, none, some ⟨none, none⟩, false⟩,
       [Action.focusMainWindow, Action.pickerCreated ⟨none, none⟩]) ∧
    Action.startRun ⟨0, false⟩ ∉
      (processEventWithFilter ⟨false, none, none, false⟩ ⟨⟨none, none⟩⟩
        ⟨false, ⟨none, none⟩, true, fun _ => []⟩).2 :=
  ⟨(processEventWithFilter_zero_candidates _ _ _ rfl).1,
   (processEventWithFilter_zero_candidates _ _ _ rfl).2 ⟨0, false⟩⟩

/-- C4: candidate dispatch — exactly one candidate runs that entry with no
picker; more than one candidate opens the picker; the picker's result
handler tears the picker down (`pickerRemoved`, `selectEntryView`
cleared) on either outcome, running the chosen entry or, on a cancelled
result, running nothing and leaving `running` as it was. -/
theorem processEventWithFilter_dispatch (st : EngineState) (evt : Evt)
    (env : Env) (e : Entry) :
    (env.getEntries evt.filter = [e] →
      processEventWithFilter st evt env =
        (st, hideWindow env.isAppFocused [Action.startRun e])) ∧
    (1 < (env.getEntries evt.filter).length →
      processEventWithFilter st evt env =
        ({ st with selectEntryView := some evt.filter },
         [Action.focusMainWindow, Action.pickerCreated evt.filter])) ∧
    (pickerResult st (some e) env =
      ({ st with selectEntryView := none },
       Action.pickerRemoved ::
         hideWindow env.isAppFocused [Action.startRun e])) ∧
    (pickerResult st none env =
      ({ st with selectEntryView := none },
       Action.pickerRemoved :: hideWindow env.isAppFocused []) ∧
     (pickerResult st none env).1.running = st.running) := by
  refine ⟨fun h => ?_, fun h => ?_, rfl, rfl, rfl⟩
  · simp [processEventWithFilter, h]
  · rcases hl : env.getEntries evt.filter with _ | ⟨a, _ | ⟨b, t⟩⟩
    · rw [hl] at h; simp at h
    · rw [hl] at h; simp at h
    · simp [processEventWithFilter, hl]

theorem processEventWithFilter_dispatch_witness :
    processEventWithFilter ⟨false, none, none, false⟩ ⟨⟨some "u", none⟩⟩
        ⟨false, ⟨none, none⟩, true, fun _ => [⟨1, false⟩]⟩ =
      (⟨false, none, none, false⟩, [Action.startRun ⟨1, false⟩]) ∧
    processEventWithFilter ⟨false, none, none, false⟩ ⟨⟨some "u", none⟩⟩
        ⟨false, ⟨none, none⟩, true, fun _ => [⟨1, false⟩, ⟨2, true⟩]⟩ =
      (⟨false, none, some ⟨some "u", none⟩, false⟩,
       [Action.focusMainWindow, Action.pickerCreated ⟨some "u", none⟩]) :=
  ⟨(processEventWithFilter_dispatch ⟨false, none, none, false⟩
      ⟨⟨some "u", none⟩⟩
      ⟨false, ⟨none, none⟩, true, fun _ => [⟨1, false⟩]⟩ ⟨1, false⟩).1 rfl,
   (processEventWithFilter_dispatch ⟨false, none, none, false⟩
      ⟨⟨some "u", none⟩⟩
      ⟨false, ⟨none, none⟩, true, fun _ => [⟨1, false⟩, ⟨2, true⟩]⟩
      ⟨1, false⟩).2.1 (by decide)⟩

/-- C5: a pending deferred trigger is replayed through
`processEventWithFilter` on the stored filter context, on a state whose
`pendingEvent` is already cleared and whose `update` subscription is
already removed; the replay is insensitive to the current window context
(no fresh query), and a second `update` notification replays nothing. -/
theorem processPendingEvent_replays_once (st : EngineState)
    (env env2 : Env) (evt : Evt) (h : st.pendingEvent = some evt) :
    processPendingEvent st env =
      processEventWithFilter
        { st with pendingEvent := none, updateSubscribed := false } evt
        env ∧
    (∀ w, processPendingEvent st { env with windowTitle := w } =
      processPendingEvent st env) ∧
    processPendingEvent (processPendingEvent st env).1 env2 =
      ((processPendingEvent st env).1, []) := by
  refine ⟨by simp [processPendingEvent, h], fun w => ?_, ?_⟩
  · rcases hl : env.getEntries evt.filter with _ | ⟨a, _ | ⟨b, t⟩⟩ <;>
      simp [processPendingEvent, h, processEventWithFilter, hl]
  · apply processPendingEvent_none
    have hfr := processEventWithFilter_frame
      { st with pendingEvent := none, updateSubscribed := false } evt env
    simp [processPendingEvent, h]
    exact hfr.1

theorem processPendingEvent_replays_once_witness :
    processPendingEvent
        ⟨false, some ⟨⟨some "old", none⟩⟩, none, true⟩
        ⟨false, ⟨some "fresh", none⟩, true, fun _ => []⟩ =
      processEventWithFilter ⟨false, none, none, false⟩ ⟨⟨some "old", none⟩⟩
        ⟨false, ⟨some "fresh", none⟩, true, fun _ => []⟩ ∧
    processPendingEvent
        ⟨false, some ⟨⟨some "old", none⟩⟩, none, true⟩
        ⟨false, ⟨some "other", none⟩, true, fun _ => []⟩ =
      processPendingEvent
        ⟨false, some ⟨⟨some "old", none⟩⟩, none, true⟩
        ⟨false, ⟨some "fresh", none⟩, true, fun _ => []⟩ ∧
    processPendingEvent
        (processPendingEvent
          ⟨false, some ⟨⟨some "old", none⟩⟩, none, true⟩
          ⟨false, ⟨some "fresh", none⟩, true, fun _ => []⟩).1
        ⟨false, ⟨some "fresh", none⟩, true, fun _ => []⟩ =
      ((processPendingEvent
          ⟨false, some ⟨⟨some "old", none⟩⟩, none, true⟩
          ⟨false, ⟨some "fresh", none⟩, true, fun _ => []⟩).1, []) :=
  ⟨(processPendingEvent_replays_once _ _
      ⟨false, ⟨some "fresh", none⟩, true, fun _ => []⟩ _ rfl).1,
   (processPendingEvent_replays_once _
      ⟨false, ⟨some "fresh", none⟩, true, fun _ => []⟩
      ⟨false, ⟨some "fresh", none⟩, true, fun _ => []⟩ _ rfl).2.1
      ⟨some "other", none⟩,
   (processPendingEvent_replays_once _
      ⟨false, ⟨some "fresh", none⟩, true, fun _ => []⟩
      ⟨false, ⟨some "fresh", none⟩, true, fun _ => []⟩ _ rfl).2.2⟩

/-- C6: `resetPendingEvent` leaves `pendingEvent` null; when a trigger was
pending it also removes the `update` subscription, and a subsequent
`update` notification replays nothing; when no trigger was pending it
changes nothing at all. -/
theorem resetPendingEvent_cancels (st : EngineState) (env : Env) :
    (resetPendingEvent st).1.pendingEvent = none ∧
    (st.pendingEvent ≠ none →
      (resetPendingEvent st).1.updateSubscribed = false) ∧
    processPendingEvent (resetPendingEvent st).1 env =
      ((resetPendingEvent st).1, []) ∧
    (st.pendingEvent = none → resetPendingEvent st = (st, [])) := by
  rcases h : st.pendingEvent with _ | evt <;>
    simp [resetPendingEvent, h, processPendingEvent]

theorem resetPendingEvent_cancels_witness :
    (resetPendingEvent
        ⟨false, some ⟨⟨some "old", none⟩⟩, none, true⟩).1.pendingEvent =
      none ∧
    (resetPendingEvent
        ⟨false, some ⟨⟨some "old", none⟩⟩, none, true⟩).1.updateSubscribed =
      false ∧
    processPendingEvent
        (resetPendingEvent
          ⟨false, some ⟨⟨some "old", none⟩⟩, none, true⟩).1
        ⟨false, ⟨none, none⟩, true, fun _ => []⟩ =
      ((resetPendingEvent
          ⟨false, some ⟨⟨some "old", none⟩⟩, none, true⟩).1, []) ∧
    resetPendingEvent ⟨false, none, none, false⟩ =
      (⟨false, none, none, false⟩, []) :=
  ⟨(resetPendingEvent_cancels ⟨false, some ⟨⟨some "old", none⟩⟩, none, true⟩
      ⟨false, ⟨none, none⟩, true, fun _ => []⟩).1,
   (resetPendingEvent_cancels ⟨false, some ⟨⟨some "old", none⟩⟩, none, true⟩
      ⟨false, ⟨none, none⟩, true, fun _ => []⟩).2.1 (by decide),
   (resetPendingEvent_cancels ⟨false, some ⟨⟨some "old", none⟩⟩, none, true⟩
      ⟨false, ⟨none, none⟩, true, fun _ => []⟩).2.2.1,
   (resetPendingEvent_cancels ⟨false, none, none, false⟩
      ⟨false, ⟨none, none⟩, true, fun _ => []⟩).2.2.2 rfl⟩

/-- Each character block `replace(/./g, '*')` emits is either asterisks or
a character the JS dot does not match. -/
theorem maskCharL_chars (d c : Char) (hc : c ∈ maskCharL d) :
    c = '*' ∨ jsDotMatches c = false := by
  unfold maskCharL at hc
  by_cases hd : jsDotMatches d
  · rw [if_pos hd] at hc
    split at hc <;> simp_all
  · rw [if_neg hd] at hc
    simp at hc
    subst hc
    exact Or.inr (by simpa using hd)

/-- C8 counterexample: a `Text` literal consisting of a newline is printed
as the newline itself under redaction — the JS dot does not match line
terminators, so not every literal character is replaced by the mask. -/
theorem printOp_newline_unmasked :
    printOp false (Op.text "" "\n") = "\n" ∧
    printOp false (Op.text "" "\n") ≠ "*" := by
  have h : printOp false (Op.text "" "\n") = "\n" := by
    simp [printOp]
    decide
  exact ⟨h, by rw [h]; decide⟩

/-- C8 (amended): under redaction, every character of a `Text` literal
that the JS dot matches — all except the line terminators LF, CR, U+2028
and U+2029 — is replaced by the mask `*` (an astral character by two
asterisks), so each output character of the masked literal is either `*`
or a line terminator; command type names and argument values, modifier
strings and group structure are rendered unmasked; with the debug flag
set, literals are rendered verbatim. -/
theorem printOp_redaction (mod v ty arg : String) (ops : List Op) :
    printOp false (Op.text mod v) = mod ++ maskText v ∧
    (∀ c ∈ (maskText v).data, c = '*' ∨ jsDotMatches c = false) ∧
    printOp true (Op.text mod v) = mod ++ v ∧
    (∀ clear, printOp clear (Op.cmd mod ty arg) =
      mod ++ ty ++ ":" ++ arg) ∧
    (∀ clear, printOp clear (Op.group mod ops) =
      mod ++ printOps clear ops) := by
  refine ⟨by simp [printOp], ?_, by simp [printOp], fun clear => by simp [printOp],
    fun clear => by simp [printOp]⟩
  intro c hc
  have hc' : c ∈ (v.data.map maskCharL).flatten := hc
  rw [List.mem_flatten] at hc'
  obtain ⟨l, hl, hcl⟩ := hc'
  rw [List.mem_map] at hl
  obtain ⟨d, _, hdl⟩ := hl
  exact maskCharL_chars d c (hdl ▸ hcl)

theorem printOp_redaction_witness :
    printOp false (Op.text "m" "ab\n") = "m" ++ maskText "ab\n" ∧
    ('*' = '*' ∨ jsDotMatches '*' = false) ∧
    printOp true (Op.text "m" "ab\n") = "m" ++ "ab\n" ∧
    printOp false (Op.cmd "+" "tab" "2") = "+" ++ "tab" ++ ":" ++ "2" ∧
    printOp false (Op.group "^" []) = "^" ++ printOps false [] :=
  ⟨(printOp_redaction "m" "ab\n" "tab" "2" []).1,
   (printOp_redaction "m" "ab\n" "tab" "2" []).2.1 '*' (by decide),
   (printOp_redaction "m" "ab\n" "tab" "2" []).2.2.1,
   (printOp_redaction "+" "ab\n" "tab" "2" []).2.2.2.1 false,
   (printOp_redaction "^" "x" "t" "a" []).2.2.2.2 false⟩

end AutoType
